import Mathlib

/-!
Shallow embedding of the WebSocket signaling relay of `src/routes.ts`
(the `wss.on` connection handler, the `connectedClients` map, the
`ws.on` message / pong / close handlers, and the `pingInterval` sweep).

State components mirror the source:
* `clients` models the set `wss.clients` (connections currently held by the
  server; removed on close or terminate);
* `conns` models the per-socket fields `ws.userId`, `ws.isAlive`,
  `ws.readyState` (records are kept after close, with `readyState` updated,
  matching the fact that the JS object outlives the socket);
* `connectedClients` models the `Map` from identity to connection.

Inbound frames are either `malformed` (raw text on which `JSON.parse` throws,
swallowed by the surrounding try/catch) or `parsed env raw`, where `env` holds
the routing fields the handler reads (`type`, `userId`, `from`, `to`, each
absent or a string, with JS truthiness = present and non-empty) and `raw` is
the original frame text, forwarded byte-for-byte by `recipient.send`.
-/

namespace Relay

/-- Connection identifier, standing for the identity of a `ws` object. -/
abbrev ConnId := Nat

/-- The `readyState` of a WebSocket; the handler only compares it
against `WebSocket.OPEN`. -/
inductive ReadyState where
  | connecting
  | opened
  | closing
  | closed
deriving DecidableEq, Repr

/-- Per-connection mutable fields of a `WebSocketClient`:
`ws.userId`, `ws.isAlive`, `ws.readyState`. -/
structure Conn where
  userId : Option String
  isAlive : Bool
  readyState : ReadyState
deriving DecidableEq, Repr

/-- Whole relay state: `wss.clients`, the per-socket fields, and the
`connectedClients` registry map. -/
structure RelayState where
  clients : List ConnId
  conns : List (ConnId × Conn)
  connectedClients : List (String × ConnId)
deriving DecidableEq, Repr

/-- Association-list lookup, modelling `Map.get`. -/
def alookup {α β : Type} [DecidableEq α] (k : α) : List (α × β) → Option β
  | [] => none
  | (k1, v) :: m => if k1 = k then some v else alookup k m

/-- Remove every binding of a key, modelling `Map.delete` (keys are unique
in every state built by `aset`/`aerase`). -/
def aerase {α β : Type} [DecidableEq α] (k : α) : List (α × β) → List (α × β)
  | [] => []
  | (k1, v) :: m => if k1 = k then aerase k m else (k1, v) :: aerase k m

/-- Overwrite a key with a value, modelling `Map.set`. -/
def aset {α β : Type} [DecidableEq α] (k : α) (v : β) (m : List (α × β)) :
    List (α × β) :=
  (k, v) :: aerase k m

/-- Read a connection's record (`ws` fields). -/
def getConn (s : RelayState) (c : ConnId) : Option Conn :=
  alookup c s.conns

/-- Update a connection's record. -/
def setConn (s : RelayState) (c : ConnId) (v : Conn) : RelayState :=
  { s with conns := aset c v s.conns }

/-- JS truthiness of an optional string field: present and non-empty. -/
def truthy : Option String → Bool
  | none => false
  | some s => decide (s ≠ "")

/-- The routing fields the message handler reads from the parsed JSON. -/
structure Envelope where
  type : Option String
  userId : Option String
  «from» : Option String
  «to» : Option String
deriving DecidableEq, Repr

/-- An inbound frame: either text on which `JSON.parse` throws, or a parsed
envelope together with the original raw frame text. -/
inductive Inbound where
  | malformed (raw : String)
  | parsed (env : Envelope) (raw : String)
deriving DecidableEq, Repr

/-- Payload of an outbound `send`: either the original raw frame forwarded
verbatim, or the stringified error object with fields
type = error, message = Recipient not available, from = server,
to = the given string. -/
inductive Wire where
  | raw (payload : String)
  | errorNotAvailable («to» : String)
deriving DecidableEq, Repr

/-- Observable relay actions: `ws.send`, `ws.ping`, `ws.terminate`. -/
inductive Output where
  | send (target : ConnId) (w : Wire)
  | ping (target : ConnId)
  | terminate (target : ConnId)
deriving DecidableEq, Repr

/-- Guard of the register branch:
`data.type === 'register' && data.userId`. -/
def isRegister (env : Envelope) : Bool :=
  decide (env.type = some "register") && truthy env.userId

/-- Guard of the signal branch: `data.type && data.from && data.to`. -/
def isSignal (env : Envelope) : Bool :=
  truthy env.type && truthy env.«from» && truthy env.«to»

/-- Whether a connection's channel is open:
`c.readyState === WebSocket.OPEN` (false when the record is missing,
matching a falsy `recipient`). -/
def connOpen (s : RelayState) (c : ConnId) : Bool :=
  match getConn s c with
  | some v => decide (v.readyState = ReadyState.opened)
  | none => false

/-- The `ws.on` message handler.  Mirrors the source: parse failure is
swallowed; the register branch sets `ws.userId`, overwrites the registry
entry and returns; the signal branch looks the recipient up by `data.to`,
forwards the raw frame when the recipient is open, otherwise replies with
the error envelope to the sender when the sender's own channel is open;
anything else is ignored. -/
def handleMessage (s : RelayState) (ws : ConnId) (m : Inbound) :
    RelayState × List Output :=
  match m with
  | .malformed _ => (s, [])
  | .parsed env raw =>
    if isRegister env then
      let uid := env.userId.getD ""
      let s1 := match getConn s ws with
        | some v => setConn s ws { v with userId := some uid }
        | none => s
      ({ s1 with connectedClients := aset uid ws s1.connectedClients }, [])
    else if isSignal env then
      match alookup (env.«to».getD "") s.connectedClients with
      | some r =>
        if connOpen s r then (s, [Output.send r (Wire.raw raw)])
        else if connOpen s ws then
          (s, [Output.send ws (Wire.errorNotAvailable (env.«from».getD ""))])
        else (s, [])
      | none =>
        if connOpen s ws then
          (s, [Output.send ws (Wire.errorNotAvailable (env.«from».getD ""))])
        else (s, [])
    else (s, [])

/-- Remove a connection from `clients` (the server set holds each socket at
most once, so filtering is `Set.delete`). -/
def removeClient (c : ConnId) (l : List ConnId) : List ConnId :=
  l.filter (fun x => decide (x ≠ c))

/-- Transport-level effect of a socket going away: its `readyState` becomes
closed and it leaves `wss.clients`. -/
def closeTransport (s : RelayState) (ws : ConnId) : RelayState :=
  let s1 := match getConn s ws with
    | some v => setConn s ws { v with readyState := ReadyState.closed }
    | none => s
  { s1 with clients := removeClient ws s1.clients }

/-- Registry purge done on disconnect and by the dead branch of the sweep:
when the socket's `ws.userId` is truthy, delete the registry entry under
that key (`if (ws.userId) connectedClients.delete(ws.userId)`). -/
def purgeRegistry (s : RelayState) (v : Conn) : RelayState :=
  if truthy v.userId then
    { s with connectedClients := aerase (v.userId.getD "") s.connectedClients }
  else s

/-- The `ws.on` close handler plus transport effect: delete the registry
entry under `ws.userId` when truthy, then the socket is gone. -/
def handleClose (s : RelayState) (ws : ConnId) : RelayState :=
  let s1 := match getConn s ws with
    | some v => purgeRegistry s v
    | none => s
  closeTransport s1 ws

/-- Connection establishment: added to `wss.clients`, fresh record with
`ws.isAlive = true` and an open channel. -/
def handleConnect (s : RelayState) (ws : ConnId) : RelayState :=
  { s with
    clients := ws :: s.clients,
    conns := aset ws
      { userId := none, isAlive := true, readyState := ReadyState.opened }
      s.conns }

/-- The `ws.on` pong handler: `ws.isAlive = true`. -/
def handlePong (s : RelayState) (ws : ConnId) : RelayState :=
  match getConn s ws with
  | some v => setConn s ws { v with isAlive := true }
  | none => s

/-- One iteration of the `pingInterval` sweep body for one socket:
if `ws.isAlive === false`, delete its registry entry when `ws.userId` is
truthy and terminate it; otherwise set `ws.isAlive = false` and ping. -/
def sweepConn (acc : RelayState × List Output) (ws : ConnId) :
    RelayState × List Output :=
  match getConn acc.1 ws with
  | none => acc
  | some v =>
    if v.isAlive = false then
      (closeTransport (purgeRegistry acc.1 v) ws,
       acc.2 ++ [Output.terminate ws])
    else
      (setConn acc.1 ws { v with isAlive := false },
       acc.2 ++ [Output.ping ws])

/-- One firing of the `pingInterval` timer: the sweep body runs over the
snapshot of `wss.clients`, threading the shared state. -/
def tick (s : RelayState) : RelayState × List Output :=
  s.clients.foldl sweepConn (s, [])

/-- Relay events: a client connects, sends a frame, answers a probe,
disconnects, or the liveness timer fires. -/
inductive Event where
  | connect (c : ConnId)
  | message (c : ConnId) (m : Inbound)
  | pong (c : ConnId)
  | close (c : ConnId)
  | tick
deriving DecidableEq, Repr

/-- One event step with its outputs. -/
def stepOut (s : RelayState) : Event → RelayState × List Output
  | .connect c => (handleConnect s c, [])
  | .message c m => handleMessage s c m
  | .pong c => (handlePong s c, [])
  | .close c => (handleClose s c, [])
  | .tick => tick s

/-- One event step, state only. -/
def step (s : RelayState) (e : Event) : RelayState :=
  (stepOut s e).1

/-- Run a sequence of events. -/
def run (s : RelayState) : List Event → RelayState
  | [] => s
  | e :: tr => run (step s e) tr

/-- Relay state at server start: no connections, empty registry. -/
def init : RelayState := ⟨[], [], []⟩

/-- Transport-level sanity of an event in a state: connects are fresh,
frames, pongs and closes come from currently-held sockets. -/
def okEventB (s : RelayState) : Event → Bool
  | .connect c => decide (c ∉ s.clients) && (getConn s c).isNone
  | .message c _ => decide (c ∈ s.clients)
  | .pong c => decide (c ∈ s.clients)
  | .close c => decide (c ∈ s.clients)
  | .tick => true

/-- A transport-sane event sequence from a state. -/
def wfB (s : RelayState) : List Event → Bool
  | [] => true
  | e :: tr => okEventB s e && wfB (step s e) tr

/-- A connection currently marked alive (its record exists and
`ws.isAlive` is true). -/
def connAlive (s : RelayState) (c : ConnId) : Prop :=
  ∃ v, getConn s c = some v ∧ v.isAlive = true

/-- An inter-tick window contains an acknowledgment (pong) from `c`, or the
establishment of `c` (which also sets the flag). -/
def windowHasAck (c : ConnId) (w : List Event) : Bool :=
  decide (Event.pong c ∈ w) || decide (Event.connect c ∈ w)

/-- Connection `c` acknowledges every liveness probe before the next timer
tick: at every tick at which `c` is currently held by the server, the window
of events since the previous tick (`w` accumulates it) contains a pong from
`c` or the establishment of `c`. -/
def acksB (c : ConnId) : RelayState → List Event → List Event → Bool
  | _, _, [] => true
  | s, w, Event.tick :: tr =>
    (!(decide (c ∈ s.clients)) || windowHasAck c w)
      && acksB c (step s Event.tick) [] tr
  | s, w, e :: tr => acksB c (step s e) (w ++ [e]) tr

/-- Along the event sequence, no tick ever drops connection `c` from the
server set: the dead-connection branch of the sweep never fires for `c`. -/
def NeverReaped (c : ConnId) : RelayState → List Event → Prop
  | _, [] => True
  | s, e :: tr =>
    (e = Event.tick → c ∈ s.clients → c ∈ (step s Event.tick).clients)
      ∧ NeverReaped c (step s e) tr

/-- State sanity maintained by transport-sane runs: the server set has no
duplicates and every held socket has a record. -/
def InvS (s : RelayState) : Prop :=
  s.clients.Nodup ∧ ∀ c ∈ s.clients, (getConn s c).isSome = true

/-- Change only the recorded identity (`ws.userId`) of one connection,
leaving its channel, its liveness flag, every other connection, the server
set and the registry untouched. -/
def setUserId (s : RelayState) (c : ConnId) (u : Option String) : RelayState :=
  match getConn s c with
  | some v => setConn s c { v with userId := u }
  | none => s


/-- Example state: socket 0 open and unregistered, socket 1 open and
registered as b. -/
def exState : RelayState :=
  ⟨[0, 1],
   [(0, ⟨none, true, ReadyState.opened⟩),
    (1, ⟨some "b", true, ReadyState.opened⟩)],
   [("b", 1)]⟩

/-- A well-formed signal envelope addressed to b. -/
def exEnvSig : Envelope := ⟨some "offer", none, some "a", some "b"⟩

/-- A well-formed signal envelope addressed to an unregistered identity. -/
def exEnvGhost : Envelope := ⟨some "offer", none, some "a", some "ghost"⟩

/-- A register envelope that also carries non-empty from and to fields. -/
def exEnvRegFromTo : Envelope := ⟨some "register", some "u", some "a", some "b"⟩

/-- A register envelope with from and an unmatched to field. -/
def exEnvRegGhost : Envelope :=
  ⟨some "register", some "u", some "a", some "ghost"⟩

/-- An envelope lacking a to field (and not a register message). -/
def exEnvNoTo : Envelope := ⟨some "offer", none, some "a", none⟩

/-- A plain register envelope for identity bob. -/
def exEnvRegBob : Envelope := ⟨some "register", some "bob", none, none⟩

/-- A plain register envelope for identity i. -/
def exEnvRegI : Envelope := ⟨some "register", some "i", none, none⟩

/-- State after socket 0 registered bob and socket 1 connected. -/
def exStateA1 : RelayState :=
  ⟨[0, 1],
   [(0, ⟨some "bob", true, ReadyState.opened⟩),
    (1, ⟨none, true, ReadyState.opened⟩)],
   [("bob", 0)]⟩

/-- State after socket 1 also registered bob (overwriting socket 0). -/
def exStateA2 : RelayState :=
  ⟨[0, 1],
   [(1, ⟨some "bob", true, ReadyState.opened⟩),
    (0, ⟨some "bob", true, ReadyState.opened⟩)],
   [("bob", 1)]⟩

/-- State with a registered socket 0 whose liveness flag is down and a
registered socket 1 still alive. -/
def exStateDead : RelayState :=
  ⟨[0, 1],
   [(0, ⟨some "i", false, ReadyState.opened⟩),
    (1, ⟨some "j", true, ReadyState.opened⟩)],
   [("i", 0), ("j", 1)]⟩

/-- Trace: sockets 0 and 1 connect, both register identity i (socket 1
second), then socket 0 disconnects. -/
def exTraceC2 : List Event :=
  [Event.connect 0, Event.connect 1,
   Event.message 0 (Inbound.parsed exEnvRegI "reg"),
   Event.message 1 (Inbound.parsed exEnvRegI "reg"),
   Event.close 0]

/-- Trace: socket 0 connects and answers every probe before the next tick,
then disconnects on its own. -/
def exTraceC6 : List Event :=
  [Event.connect 0, Event.tick, Event.pong 0, Event.tick, Event.close 0]

theorem alookup_aerase_self {α β : Type} [DecidableEq α] (k : α)
    (m : List (α × β)) : alookup k (aerase k m) = none := by
  induction m with
  | nil => rfl
  | cons p m ih =>
    obtain ⟨k1, v⟩ := p
    by_cases h : k1 = k
    · simp [aerase, h, ih]
    · simp [aerase, alookup, h, ih]

theorem alookup_aerase_ne {α β : Type} [DecidableEq α] {k1 k : α}
    (m : List (α × β)) (h : k1 ≠ k) :
    alookup k1 (aerase k m) = alookup k1 m := by
  induction m with
  | nil => rfl
  | cons p m ih =>
    obtain ⟨k2, v⟩ := p
    by_cases h2 : k2 = k
    · subst h2
      simp [aerase, alookup, Ne.symm h, ih]
    · by_cases h3 : k2 = k1
      · subst h3
        simp [aerase, alookup, h2]
      · simp [aerase, alookup, h2, h3, ih]

theorem alookup_aerase_none {α β : Type} [DecidableEq α] {u : α} (k : α)
    {m : List (α × β)} (h : alookup u m = none) :
    alookup u (aerase k m) = none := by
  by_cases hk : u = k
  · subst hk; exact alookup_aerase_self u m
  · rw [alookup_aerase_ne m hk]; exact h

theorem alookup_aset_self {α β : Type} [DecidableEq α] (k : α) (v : β)
    (m : List (α × β)) : alookup k (aset k v m) = some v := by
  simp [aset, alookup]

theorem alookup_aset_ne {α β : Type} [DecidableEq α] {k1 k : α} (v : β)
    (m : List (α × β)) (h : k1 ≠ k) :
    alookup k1 (aset k v m) = alookup k1 m := by
  simp only [aset, alookup, if_neg (Ne.symm h)]
  exact alookup_aerase_ne m h

theorem getConn_setConn_self (s : RelayState) (c : ConnId) (v : Conn) :
    getConn (setConn s c v) c = some v := by
  simp [getConn, setConn, alookup_aset_self]

theorem getConn_setConn_ne (s : RelayState) {d c : ConnId} (v : Conn)
    (h : d ≠ c) : getConn (setConn s c v) d = getConn s d := by
  simp [getConn, setConn, alookup_aset_ne v _ h]

theorem mem_removeClient {x c : ConnId} {l : List ConnId} :
    x ∈ removeClient c l ↔ x ∈ l ∧ x ≠ c := by
  simp [removeClient]

theorem nodup_removeClient (c : ConnId) {l : List ConnId} (h : l.Nodup) :
    (removeClient c l).Nodup :=
  h.filter _

theorem clients_setConn (s : RelayState) (c : ConnId) (v : Conn) :
    (setConn s c v).clients = s.clients := rfl

theorem registry_setConn (s : RelayState) (c : ConnId) (v : Conn) :
    (setConn s c v).connectedClients = s.connectedClients := rfl

theorem registry_closeTransport (s : RelayState) (ws : ConnId) :
    (closeTransport s ws).connectedClients = s.connectedClients := by
  unfold closeTransport
  cases getConn s ws <;> rfl

theorem clients_closeTransport (s : RelayState) (ws : ConnId) :
    (closeTransport s ws).clients = removeClient ws s.clients := by
  unfold closeTransport
  cases getConn s ws <;> rfl

theorem getConn_closeTransport_ne (s : RelayState) {d ws : ConnId}
    (h : d ≠ ws) : getConn (closeTransport s ws) d = getConn s d := by
  unfold closeTransport
  cases getConn s ws with
  | none => rfl
  | some v => exact getConn_setConn_ne s _ h

theorem getConn_closeTransport_self (s : RelayState) {ws : ConnId} {v : Conn}
    (h : getConn s ws = some v) :
    getConn (closeTransport s ws) ws
      = some { v with readyState := ReadyState.closed } := by
  unfold closeTransport
  rw [h]
  exact getConn_setConn_self s ws _

theorem getConn_setRegistry (s : RelayState) (r : List (String × ConnId))
    (c : ConnId) : getConn { s with connectedClients := r } c = getConn s c :=
  rfl

theorem clients_purgeRegistry (s : RelayState) (v : Conn) :
    (purgeRegistry s v).clients = s.clients := by
  unfold purgeRegistry
  split <;> rfl

theorem getConn_purgeRegistry (s : RelayState) (v : Conn) (c : ConnId) :
    getConn (purgeRegistry s v) c = getConn s c := by
  unfold purgeRegistry
  split <;> rfl

theorem purgeRegistry_reg_none {u : String} (s : RelayState) (v : Conn)
    (h : alookup u s.connectedClients = none) :
    alookup u (purgeRegistry s v).connectedClients = none := by
  unfold purgeRegistry
  split
  · exact alookup_aerase_none _ h
  · exact h

theorem purgeRegistry_self (s : RelayState) {v : Conn}
    (ht : truthy v.userId = true) :
    alookup (v.userId.getD "") (purgeRegistry s v).connectedClients = none := by
  unfold purgeRegistry
  rw [if_pos ht]
  exact alookup_aerase_self _ _

theorem sweep_getConn_ne (acc : RelayState × List Output) {d c : ConnId}
    (h : c ≠ d) : getConn (sweepConn acc d).1 c = getConn acc.1 c := by
  cases hv : getConn acc.1 d with
  | none => simp [sweepConn, hv]
  | some v =>
    cases ha : v.isAlive with
    | false =>
      simp only [sweepConn, hv, ha]
      rw [if_pos trivial, getConn_closeTransport_ne _ h, getConn_purgeRegistry]
    | true =>
      simp only [sweepConn, hv, ha]
      rw [if_neg (by decide)]
      exact getConn_setConn_ne acc.1 _ h

theorem sweep_mem_ne (acc : RelayState × List Output) {d c : ConnId}
    (h : c ≠ d) : c ∈ (sweepConn acc d).1.clients ↔ c ∈ acc.1.clients := by
  cases hv : getConn acc.1 d with
  | none => simp [sweepConn, hv]
  | some v =>
    cases ha : v.isAlive with
    | false =>
      simp only [sweepConn, hv, ha]
      rw [if_pos trivial, clients_closeTransport, clients_purgeRegistry]
      simp [mem_removeClient, h]
    | true =>
      simp only [sweepConn, hv, ha]
      rw [if_neg (by decide)]
      exact Iff.rfl

theorem sweep_clients_sub (acc : RelayState × List Output) (d : ConnId)
    {x : ConnId} (hx : x ∈ (sweepConn acc d).1.clients) :
    x ∈ acc.1.clients := by
  by_cases h : x = d
  · subst h
    revert hx
    cases hv : getConn acc.1 x with
    | none => simp [sweepConn, hv]
    | some v =>
      cases ha : v.isAlive with
      | false =>
        simp only [sweepConn, hv, ha]
        rw [if_pos trivial, clients_closeTransport, clients_purgeRegistry]
        intro hx
        exact absurd rfl (mem_removeClient.mp hx).2
      | true =>
        simp only [sweepConn, hv, ha]
        rw [if_neg (by decide)]
        exact id
  · exact (sweep_mem_ne acc h).mp hx

theorem sweep_reg_none (acc : RelayState × List Output) (d : ConnId)
    {u : String} (h : alookup u acc.1.connectedClients = none) :
    alookup u (sweepConn acc d).1.connectedClients = none := by
  cases hv : getConn acc.1 d with
  | none => simpa [sweepConn, hv] using h
  | some v =>
    cases ha : v.isAlive with
    | false =>
      simp only [sweepConn, hv, ha]
      rw [if_pos trivial, registry_closeTransport]
      exact purgeRegistry_reg_none _ _ h
    | true =>
      simp only [sweepConn, hv, ha]
      rw [if_neg (by decide)]
      exact h

theorem sweep_out_mem (acc : RelayState × List Output) (d : ConnId)
    {o : Output} (h : o ∈ acc.2) : o ∈ (sweepConn acc d).2 := by
  cases hv : getConn acc.1 d with
  | none => simpa [sweepConn, hv] using h
  | some v =>
    cases ha : v.isAlive with
    | false =>
      simp only [sweepConn, hv, ha]
      rw [if_pos trivial]
      exact List.mem_append_left _ h
    | true =>
      simp only [sweepConn, hv, ha]
      rw [if_neg (by decide)]
      exact List.mem_append_left _ h

theorem sweep_nodup (acc : RelayState × List Output) (d : ConnId)
    (h : acc.1.clients.Nodup) : (sweepConn acc d).1.clients.Nodup := by
  cases hv : getConn acc.1 d with
  | none => simpa [sweepConn, hv] using h
  | some v =>
    cases ha : v.isAlive with
    | false =>
      simp only [sweepConn, hv, ha]
      rw [if_pos trivial, clients_closeTransport, clients_purgeRegistry]
      exact nodup_removeClient d h
    | true =>
      simp only [sweepConn, hv, ha]
      rw [if_neg (by decide)]
      exact h

theorem sweep_getConn_isSome (acc : RelayState × List Output) (d : ConnId)
    {x : ConnId} (h : (getConn acc.1 x).isSome = true) :
    (getConn (sweepConn acc d).1 x).isSome = true := by
  by_cases hx : x = d
  · subst hx
    cases hv : getConn acc.1 x with
    | none =>
      rw [hv] at h
      exact absurd h (by simp)
    | some v =>
      cases ha : v.isAlive with
      | false =>
        simp only [sweepConn, hv, ha]
        rw [if_pos trivial,
            getConn_closeTransport_self _ (by rw [getConn_purgeRegistry]; exact hv)]
        rfl
      | true =>
        simp only [sweepConn, hv, ha]
        rw [if_neg (by decide), getConn_setConn_self]
        rfl
  · rw [sweep_getConn_ne acc hx]
    exact h

theorem fold_getConn_ne (l : List ConnId) (acc : RelayState × List Output)
    {c : ConnId} (h : c ∉ l) :
    getConn (l.foldl sweepConn acc).1 c = getConn acc.1 c := by
  induction l generalizing acc with
  | nil => rfl
  | cons d l ih =>
    rw [List.foldl_cons,
        ih _ (fun hm => h (List.mem_cons.mpr (Or.inr hm))),
        sweep_getConn_ne acc (fun he => h (List.mem_cons.mpr (Or.inl he)))]

theorem fold_mem_ne (l : List ConnId) (acc : RelayState × List Output)
    {c : ConnId} (h : c ∉ l) :
    c ∈ (l.foldl sweepConn acc).1.clients ↔ c ∈ acc.1.clients := by
  induction l generalizing acc with
  | nil => exact Iff.rfl
  | cons d l ih =>
    rw [List.foldl_cons,
        ih _ (fun hm => h (List.mem_cons.mpr (Or.inr hm))),
        sweep_mem_ne acc (fun he => h (List.mem_cons.mpr (Or.inl he)))]

theorem fold_clients_sub (l : List ConnId) (acc : RelayState × List Output)
    {x : ConnId} (hx : x ∈ (l.foldl sweepConn acc).1.clients) :
    x ∈ acc.1.clients := by
  induction l generalizing acc with
  | nil => exact hx
  | cons d l ih =>
    rw [List.foldl_cons] at hx
    exact sweep_clients_sub acc d (ih _ hx)

theorem fold_reg_none (l : List ConnId) (acc : RelayState × List Output)
    {u : String} (h : alookup u acc.1.connectedClients = none) :
    alookup u (l.foldl sweepConn acc).1.connectedClients = none := by
  induction l generalizing acc with
  | nil => exact h
  | cons d l ih =>
    rw [List.foldl_cons]
    exact ih _ (sweep_reg_none acc d h)

theorem fold_out_mem (l : List ConnId) (acc : RelayState × List Output)
    {o : Output} (h : o ∈ acc.2) : o ∈ (l.foldl sweepConn acc).2 := by
  induction l generalizing acc with
  | nil => exact h
  | cons d l ih =>
    rw [List.foldl_cons]
    exact ih _ (sweep_out_mem acc d h)

theorem fold_nodup (l : List ConnId) (acc : RelayState × List Output)
    (h : acc.1.clients.Nodup) : (l.foldl sweepConn acc).1.clients.Nodup := by
  induction l generalizing acc with
  | nil => exact h
  | cons d l ih =>
    rw [List.foldl_cons]
    exact ih _ (sweep_nodup acc d h)

theorem fold_getConn_isSome (l : List ConnId) (acc : RelayState × List Output)
    {x : ConnId} (h : (getConn acc.1 x).isSome = true) :
    (getConn (l.foldl sweepConn acc).1 x).isSome = true := by
  induction l generalizing acc with
  | nil => exact h
  | cons d l ih =>
    rw [List.foldl_cons]
    exact ih _ (sweep_getConn_isSome acc d h)

theorem tick_conn_spec (s : RelayState) {c : ConnId} {v : Conn}
    (hnd : s.clients.Nodup) (hmem : c ∈ s.clients)
    (hv : getConn s c = some v) :
    (v.isAlive = true →
      getConn (tick s).1 c = some { v with isAlive := false }
      ∧ c ∈ (tick s).1.clients
      ∧ Output.ping c ∈ (tick s).2)
    ∧ (v.isAlive = false →
      c ∉ (tick s).1.clients
      ∧ getConn (tick s).1 c = some { v with readyState := ReadyState.closed }
      ∧ (truthy v.userId = true →
          alookup (v.userId.getD "") (tick s).1.connectedClients = none)
      ∧ Output.terminate c ∈ (tick s).2) := by
  obtain ⟨l1, l2, hsplit⟩ := List.append_of_mem hmem
  have hnd2 : (l1 ++ c :: l2).Nodup := hsplit ▸ hnd
  have hc1 : c ∉ l1 := fun hm =>
    List.disjoint_of_nodup_append hnd2 hm (List.mem_cons_self c l2)
  have hc2 : c ∉ l2 := (List.nodup_cons.mp (List.nodup_append.mp hnd2).2.1).1
  have htick : tick s
      = List.foldl sweepConn
          (sweepConn (List.foldl sweepConn (s, []) l1) c) l2 := by
    unfold tick
    rw [hsplit, List.foldl_append, List.foldl_cons]
  have hacc1_conn :
      getConn (List.foldl sweepConn (s, ([] : List Output)) l1).1 c
        = some v := by
    rw [fold_getConn_ne l1 _ hc1]; exact hv
  have hacc1_mem :
      c ∈ (List.foldl sweepConn (s, ([] : List Output)) l1).1.clients :=
    (fold_mem_ne l1 _ hc1).mpr hmem
  constructor
  · intro halive
    have hstep : sweepConn (List.foldl sweepConn (s, ([] : List Output)) l1) c
        = (setConn (List.foldl sweepConn (s, []) l1).1 c
            { v with isAlive := false },
           (List.foldl sweepConn (s, []) l1).2 ++ [Output.ping c]) := by
      simp only [sweepConn, hacc1_conn, halive]
      rw [if_neg (by decide)]
    refine ⟨?_, ?_, ?_⟩
    · rw [htick, fold_getConn_ne l2 _ hc2, hstep]
      exact getConn_setConn_self _ _ _
    · rw [htick]
      refine (fold_mem_ne l2 _ hc2).mpr ?_
      rw [hstep, clients_setConn]
      exact hacc1_mem
    · rw [htick]
      refine fold_out_mem l2 _ ?_
      rw [hstep]
      exact List.mem_append_right _ (List.mem_singleton.mpr rfl)
  · intro hdead
    have hstep : sweepConn (List.foldl sweepConn (s, ([] : List Output)) l1) c
        = (closeTransport
             (purgeRegistry (List.foldl sweepConn (s, []) l1).1 v) c,
           (List.foldl sweepConn (s, []) l1).2 ++ [Output.terminate c]) := by
      simp only [sweepConn, hacc1_conn, hdead]
      rw [if_pos trivial]
    refine ⟨?_, ?_, ?_, ?_⟩
    · rw [htick]
      intro hmm
      have h2 := (fold_mem_ne l2 _ hc2).mp hmm
      rw [hstep, clients_closeTransport, clients_purgeRegistry] at h2
      exact absurd rfl (mem_removeClient.mp h2).2
    · rw [htick, fold_getConn_ne l2 _ hc2, hstep]
      exact getConn_closeTransport_self _
        (by rw [getConn_purgeRegistry]; exact hacc1_conn)
    · intro ht
      rw [htick]
      refine fold_reg_none l2 _ ?_
      rw [hstep, registry_closeTransport]
      exact purgeRegistry_self _ ht
    · rw [htick]
      refine fold_out_mem l2 _ ?_
      rw [hstep]
      exact List.mem_append_right _ (List.mem_singleton.mpr rfl)

theorem handleMessage_clients (s : RelayState) (ws : ConnId) (m : Inbound) :
    (handleMessage s ws m).1.clients = s.clients := by
  unfold handleMessage
  repeat' split <;> try rfl

theorem handleMessage_getConn_isSome (s : RelayState) (ws : ConnId)
    (m : Inbound) {x : ConnId} (h : (getConn s x).isSome = true) :
    (getConn (handleMessage s ws m).1 x).isSome = true := by
  rcases m with raw | ⟨env, raw⟩
  · exact h
  · simp only [handleMessage]
    by_cases hr : isRegister env = true
    · rw [if_pos hr]
      cases hg : getConn s ws with
      | none => exact h
      | some v =>
        show (getConn (setConn s ws _) x).isSome = true
        by_cases hx : x = ws
        · subst hx
          rw [getConn_setConn_self]
          rfl
        · rw [getConn_setConn_ne _ _ hx]
          exact h
    · rw [if_neg hr]
      by_cases hs : isSignal env = true
      · rw [if_pos hs]
        repeat' split
        all_goals exact h
      · rw [if_neg hs]; exact h

theorem handleClose_clients (s : RelayState) (ws : ConnId) :
    (handleClose s ws).clients = removeClient ws s.clients := by
  unfold handleClose
  rw [clients_closeTransport]
  cases getConn s ws with
  | none => rfl
  | some v => rw [clients_purgeRegistry]

theorem getConn_handleClose_ne (s : RelayState) {d ws : ConnId}
    (h : d ≠ ws) : getConn (handleClose s ws) d = getConn s d := by
  unfold handleClose
  rw [getConn_closeTransport_ne _ h]
  cases getConn s ws with
  | none => rfl
  | some v => rw [getConn_purgeRegistry]

theorem getConn_handleClose_self (s : RelayState) {ws : ConnId} {v : Conn}
    (hv : getConn s ws = some v) :
    getConn (handleClose s ws) ws
      = some { v with readyState := ReadyState.closed } := by
  unfold handleClose
  refine getConn_closeTransport_self _ ?_
  rw [hv]
  show getConn (purgeRegistry s v) ws = some v
  rw [getConn_purgeRegistry]
  exact hv

theorem handleClose_getConn_isSome (s : RelayState) (ws : ConnId)
    {x : ConnId} (h : (getConn s x).isSome = true) :
    (getConn (handleClose s ws) x).isSome = true := by
  by_cases hx : x = ws
  · subst hx
    cases hv : getConn s x with
    | none => rw [hv] at h; exact absurd h (by simp)
    | some v => rw [getConn_handleClose_self s hv]; rfl
  · rw [getConn_handleClose_ne s hx]
    exact h

theorem registry_handleClose_truthy (s : RelayState) {ws : ConnId} {v : Conn}
    (hv : getConn s ws = some v) (ht : truthy v.userId = true) :
    (handleClose s ws).connectedClients
      = aerase (v.userId.getD "") s.connectedClients := by
  unfold handleClose
  rw [registry_closeTransport, hv]
  show (purgeRegistry s v).connectedClients = _
  unfold purgeRegistry
  rw [if_pos ht]

theorem registry_handleClose_falsy (s : RelayState) {ws : ConnId} {v : Conn}
    (hv : getConn s ws = some v) (ht : truthy v.userId = false) :
    (handleClose s ws).connectedClients = s.connectedClients := by
  unfold handleClose
  rw [registry_closeTransport, hv]
  show (purgeRegistry s v).connectedClients = _
  unfold purgeRegistry
  rw [if_neg (by rw [ht]; exact Bool.false_ne_true)]

theorem handlePong_clients (s : RelayState) (ws : ConnId) :
    (handlePong s ws).clients = s.clients := by
  unfold handlePong
  split <;> rfl

theorem registry_handlePong (s : RelayState) (ws : ConnId) :
    (handlePong s ws).connectedClients = s.connectedClients := by
  unfold handlePong
  split <;> rfl

theorem getConn_handlePong_self (s : RelayState) {ws : ConnId} {v : Conn}
    (hv : getConn s ws = some v) :
    getConn (handlePong s ws) ws = some { v with isAlive := true } := by
  unfold handlePong
  rw [hv]
  exact getConn_setConn_self _ _ _

theorem getConn_handlePong_ne (s : RelayState) {d ws : ConnId} (h : d ≠ ws) :
    getConn (handlePong s ws) d = getConn s d := by
  unfold handlePong
  cases getConn s ws with
  | none => rfl
  | some v => exact getConn_setConn_ne _ _ h

theorem handlePong_getConn_isSome (s : RelayState) (ws : ConnId)
    {x : ConnId} (h : (getConn s x).isSome = true) :
    (getConn (handlePong s ws) x).isSome = true := by
  by_cases hx : x = ws
  · subst hx
    cases hv : getConn s x with
    | none => rw [hv] at h; exact absurd h (by simp)
    | some v => rw [getConn_handlePong_self s hv]; rfl
  · rw [getConn_handlePong_ne s hx]
    exact h

theorem handleConnect_clients (s : RelayState) (ws : ConnId) :
    (handleConnect s ws).clients = ws :: s.clients := rfl

theorem getConn_handleConnect_self (s : RelayState) (ws : ConnId) :
    getConn (handleConnect s ws) ws
      = some { userId := none, isAlive := true,
               readyState := ReadyState.opened } := by
  unfold handleConnect getConn
  exact alookup_aset_self _ _ _

theorem getConn_handleConnect_ne (s : RelayState) {d ws : ConnId}
    (h : d ≠ ws) : getConn (handleConnect s ws) d = getConn s d := by
  unfold handleConnect getConn
  exact alookup_aset_ne _ _ h

theorem handleMessage_isAlive (s : RelayState) (ws : ConnId) (m : Inbound)
    (x : ConnId) :
    (getConn (handleMessage s ws m).1 x).map Conn.isAlive
      = (getConn s x).map Conn.isAlive := by
  rcases m with raw | ⟨env, raw⟩
  · rfl
  · simp only [handleMessage]
    by_cases hr : isRegister env = true
    · rw [if_pos hr]
      cases hg : getConn s ws with
      | none => rfl
      | some v =>
        show ((getConn (setConn s ws _) x).map Conn.isAlive) = _
        by_cases hx : x = ws
        · subst hx
          rw [getConn_setConn_self, hg]
          rfl
        · rw [getConn_setConn_ne _ _ hx]
    · rw [if_neg hr]
      by_cases hs : isSignal env = true
      · rw [if_pos hs]
        repeat' split
        all_goals rfl
      · rw [if_neg hs]

theorem band_split {a b : Bool} (h : (a && b) = true) :
    a = true ∧ b = true := by
  simp only [Bool.and_eq_true] at h
  exact h

theorem bor_cases {a b : Bool} (h : (a || b) = true) :
    a = true ∨ b = true := by
  simp only [Bool.or_eq_true] at h
  exact h

theorem bor_intro {a b : Bool} (h : a = true ∨ b = true) :
    (a || b) = true := by
  simp only [Bool.or_eq_true]
  exact h

theorem InvS_step (s : RelayState) (e : Event) (hok : okEventB s e = true)
    (hinv : InvS s) : InvS (step s e) := by
  obtain ⟨hnd, hrec⟩ := hinv
  cases e with
  | connect d =>
    show InvS (handleConnect s d)
    have hd : d ∉ s.clients := of_decide_eq_true (band_split hok).1
    constructor
    · exact List.nodup_cons.mpr ⟨hd, hnd⟩
    · intro x hx
      by_cases hxd : x = d
      · subst hxd
        rw [getConn_handleConnect_self]
        rfl
      · rw [getConn_handleConnect_ne s hxd]
        exact hrec x (by
          rcases List.mem_cons.mp hx with h1 | h1
          · exact absurd h1 hxd
          · exact h1)
  | message d m =>
    show InvS (handleMessage s d m).1
    constructor
    · rw [handleMessage_clients]
      exact hnd
    · intro x hx
      rw [handleMessage_clients] at hx
      exact handleMessage_getConn_isSome s d m (hrec x hx)
  | pong d =>
    show InvS (handlePong s d)
    constructor
    · rw [handlePong_clients]
      exact hnd
    · intro x hx
      rw [handlePong_clients] at hx
      exact handlePong_getConn_isSome s d (hrec x hx)
  | close d =>
    show InvS (handleClose s d)
    constructor
    · rw [handleClose_clients]
      exact nodup_removeClient d hnd
    · intro x hx
      rw [handleClose_clients] at hx
      exact handleClose_getConn_isSome s d (hrec x (mem_removeClient.mp hx).1)
  | tick =>
    constructor
    · exact fold_nodup s.clients (s, []) hnd
    · intro x hx
      exact fold_getConn_isSome s.clients (s, [])
        (hrec x (fold_clients_sub s.clients (s, []) hx))

theorem step_preserves_alive (s : RelayState) (c : ConnId) (e : Event)
    (hne : e ≠ Event.tick) (h : c ∈ s.clients → connAlive s c) :
    c ∈ (step s e).clients → connAlive (step s e) c := by
  cases e with
  | connect d =>
    show c ∈ (handleConnect s d).clients → connAlive (handleConnect s d) c
    intro hx
    by_cases hcd : c = d
    · subst hcd
      exact ⟨_, getConn_handleConnect_self s c, rfl⟩
    · have hc : c ∈ s.clients := by
        rcases List.mem_cons.mp hx with h1 | h1
        · exact absurd h1 hcd
        · exact h1
      obtain ⟨v, hv, ha⟩ := h hc
      exact ⟨v, by rw [getConn_handleConnect_ne s hcd]; exact hv, ha⟩
  | message d m =>
    show c ∈ (handleMessage s d m).1.clients
      → connAlive (handleMessage s d m).1 c
    intro hx
    rw [handleMessage_clients] at hx
    obtain ⟨v, hv, ha⟩ := h hx
    have hmap := handleMessage_isAlive s d m c
    rw [hv] at hmap
    cases hg : getConn (handleMessage s d m).1 c with
    | none => rw [hg] at hmap; exact absurd hmap (by simp)
    | some v2 =>
      refine ⟨v2, hg, ?_⟩
      rw [hg] at hmap
      simpa [ha] using hmap
  | pong d =>
    show c ∈ (handlePong s d).clients → connAlive (handlePong s d) c
    intro hx
    rw [handlePong_clients] at hx
    obtain ⟨v, hv, ha⟩ := h hx
    by_cases hcd : c = d
    · subst hcd
      exact ⟨_, getConn_handlePong_self s hv, rfl⟩
    · exact ⟨v, by rw [getConn_handlePong_ne s hcd]; exact hv, ha⟩
  | close d =>
    show c ∈ (handleClose s d).clients → connAlive (handleClose s d) c
    intro hx
    rw [handleClose_clients] at hx
    obtain ⟨hc, hcd⟩ := mem_removeClient.mp hx
    obtain ⟨v, hv, ha⟩ := h hc
    exact ⟨v, by rw [getConn_handleClose_ne s hcd]; exact hv, ha⟩
  | tick => exact absurd rfl hne

theorem pong_establishes (s : RelayState) (c : ConnId) {v : Conn}
    (hv : getConn s c = some v) : connAlive (handlePong s c) c :=
  ⟨_, getConn_handlePong_self s hv, rfl⟩

theorem connect_establishes (s : RelayState) (c : ConnId) :
    connAlive (handleConnect s c) c :=
  ⟨_, getConn_handleConnect_self s c, rfl⟩

theorem tick_alive_mem (s : RelayState) (c : ConnId)
    (hnd : s.clients.Nodup) (hmem : c ∈ s.clients) (hal : connAlive s c) :
    c ∈ (step s Event.tick).clients := by
  obtain ⟨v, hv, ha⟩ := hal
  exact ((tick_conn_spec s hnd hmem hv).1 ha).2.1

theorem acks_neverReaped_aux (c : ConnId) (tr : List Event) :
    ∀ (s : RelayState) (w : List Event),
      InvS s → wfB s tr = true → acksB c s w tr = true →
      (windowHasAck c w = true → c ∈ s.clients → connAlive s c) →
      NeverReaped c s tr := by
  induction tr with
  | nil =>
    intro s w _ _ _ _
    trivial
  | cons e tr ih =>
    intro s w hinv hwf hacks hwin
    rw [wfB] at hwf
    have hok := (band_split hwf).1
    have hwf2 := (band_split hwf).2
    by_cases het : e = Event.tick
    · subst het
      rw [acksB] at hacks
      have hcond := (band_split hacks).1
      have hacks2 := (band_split hacks).2
      constructor
      · intro _ hmem
        have hwha : windowHasAck c w = true := by
          rcases bor_cases hcond with h1 | h1
          · exfalso
            rw [Bool.not_eq_true', decide_eq_false_iff_not] at h1
            exact h1 hmem
          · exact h1
        exact tick_alive_mem s c hinv.1 hmem (hwin hwha hmem)
      · refine ih (step s Event.tick) [] (InvS_step s _ rfl hinv) hwf2 hacks2 ?_
        intro hw
        exact absurd hw (by simp [windowHasAck])
    · have hacks2 : acksB c (step s e) (w ++ [e]) tr = true := by
        cases e with
        | tick => exact absurd rfl het
        | connect d =>
          rw [acksB] at hacks
          · exact hacks
          · intro h5
            exact Event.noConfusion h5
        | message d m =>
          rw [acksB] at hacks
          · exact hacks
          · intro h5
            exact Event.noConfusion h5
        | pong d =>
          rw [acksB] at hacks
          · exact hacks
          · intro h5
            exact Event.noConfusion h5
        | close d =>
          rw [acksB] at hacks
          · exact hacks
          · intro h5
            exact Event.noConfusion h5
      constructor
      · intro hx
        exact absurd hx het
      · refine ih (step s e) (w ++ [e]) (InvS_step s e hok hinv) hwf2 hacks2 ?_
        intro hwha hmem
        have hcases : (Event.pong c ∈ w ∨ Event.connect c ∈ w)
            ∨ e = Event.pong c ∨ e = Event.connect c := by
          rcases bor_cases hwha with h1 | h1
          · rcases List.mem_append.mp (of_decide_eq_true h1) with h2 | h2
            · exact Or.inl (Or.inl h2)
            · exact Or.inr (Or.inl (List.mem_singleton.mp h2).symm)
          · rcases List.mem_append.mp (of_decide_eq_true h1) with h2 | h2
            · exact Or.inl (Or.inr h2)
            · exact Or.inr (Or.inr (List.mem_singleton.mp h2).symm)
        rcases hcases with h1 | h1 | h1
        · have hbase : windowHasAck c w = true := by
            rcases h1 with h2 | h2
            · exact bor_intro (Or.inl (decide_eq_true h2))
            · exact bor_intro (Or.inr (decide_eq_true h2))
          exact step_preserves_alive s c e het (hwin hbase) hmem
        · subst h1
          have hc : c ∈ s.clients := of_decide_eq_true hok
          obtain ⟨v, hv⟩ := Option.isSome_iff_exists.mp (hinv.2 c hc)
          exact pong_establishes s c hv
        · subst h1
          exact connect_establishes s c

theorem handleMessage_signal_forward (s : RelayState) (ws r : ConnId)
    (env : Envelope) (raw : String)
    (hreg : isRegister env = false) (hsig : isSignal env = true)
    (hr : alookup (env.«to».getD "") s.connectedClients = some r)
    (hopen : connOpen s r = true) :
    handleMessage s ws (Inbound.parsed env raw)
      = (s, [Output.send r (Wire.raw raw)]) := by
  simp only [handleMessage]
  rw [if_neg (by rw [hreg]; exact Bool.false_ne_true), if_pos hsig]
  simp only [hr]
  rw [if_pos hopen]

theorem handleMessage_signal_unavailable (s : RelayState) (ws : ConnId)
    (env : Envelope) (raw : String)
    (hreg : isRegister env = false) (hsig : isSignal env = true)
    (hunavail : ∀ r,
      alookup (env.«to».getD "") s.connectedClients = some r →
        connOpen s r = false) :
    handleMessage s ws (Inbound.parsed env raw)
      = (s, if connOpen s ws = true
            then [Output.send ws (Wire.errorNotAvailable (env.«from».getD ""))]
            else []) := by
  cases halk : alookup (env.«to».getD "") s.connectedClients with
  | none =>
    simp only [handleMessage]
    rw [if_neg (by rw [hreg]; exact Bool.false_ne_true), if_pos hsig]
    simp only [halk]
    by_cases ho : connOpen s ws = true
    · rw [if_pos ho, if_pos ho]
    · rw [if_neg ho, if_neg ho]
  | some r =>
    simp only [handleMessage]
    rw [if_neg (by rw [hreg]; exact Bool.false_ne_true), if_pos hsig]
    simp only [halk]
    rw [if_neg (by rw [hunavail r halk]; exact Bool.false_ne_true)]
    by_cases ho : connOpen s ws = true
    · rw [if_pos ho, if_pos ho]
    · rw [if_neg ho, if_neg ho]

theorem handleMessage_register (s : RelayState) (ws : ConnId)
    (env : Envelope) (raw : String) {v : Conn}
    (hreg : isRegister env = true) (hv : getConn s ws = some v) :
    handleMessage s ws (Inbound.parsed env raw)
      = (⟨s.clients,
          aset ws { v with userId := some (env.userId.getD "") } s.conns,
          aset (env.userId.getD "") ws s.connectedClients⟩, []) := by
  simp only [handleMessage]
  rw [if_pos hreg]
  simp only [hv]
  rfl

theorem handleMessage_nonregister_state (s : RelayState) (ws : ConnId)
    (env : Envelope) (raw : String) (hreg : isRegister env = false) :
    (handleMessage s ws (Inbound.parsed env raw)).1 = s := by
  simp only [handleMessage]
  rw [if_neg (by rw [hreg]; exact Bool.false_ne_true)]
  repeat' split
  all_goals rfl

theorem registry_setUserId (s : RelayState) (c : ConnId) (u : Option String) :
    (setUserId s c u).connectedClients = s.connectedClients := by
  unfold setUserId
  cases getConn s c <;> rfl

theorem connOpen_setUserId (s : RelayState) (c : ConnId) (u : Option String)
    (d : ConnId) : connOpen (setUserId s c u) d = connOpen s d := by
  unfold setUserId
  cases hv : getConn s c with
  | none => rfl
  | some v =>
    unfold connOpen
    by_cases hd : d = c
    · subst hd
      rw [getConn_setConn_self, hv]
    · rw [getConn_setConn_ne _ _ hd]

/-- C1 (counterexample): an inbound envelope whose type, from and to fields
are all non-empty, addressed to an identity whose registered connection is
open, is nevertheless not forwarded when it is also a register message
(type is the string register and userId non-empty): the register branch
returns first and the relay emits nothing at all, refuting the claim as
stated for this input. -/
theorem c1_counterexample_register_envelope :
    truthy exEnvRegFromTo.type = true
    ∧ truthy exEnvRegFromTo.«from» = true
    ∧ truthy exEnvRegFromTo.«to» = true
    ∧ alookup (exEnvRegFromTo.«to».getD "") exState.connectedClients = some 1
    ∧ connOpen exState 1 = true
    ∧ (handleMessage exState 0 (Inbound.parsed exEnvRegFromTo "RAW")).2 = []
    ∧ (handleMessage exState 0 (Inbound.parsed exEnvRegFromTo "RAW")).2
        ≠ [Output.send 1 (Wire.raw "RAW")] := by decide

/-- C1 (amended): for every inbound envelope with non-empty type, from and
to fields that is not processed as a registration, if the registry maps its
to field to a connection whose channel is open, then the relay's entire
output is the single verbatim forward of the original raw frame to that
connection — so nothing else (in particular no message to the sender) is
emitted — and the relay state is unchanged. -/
theorem c1_signal_forwarded_verbatim (s : RelayState) (ws r : ConnId)
    (env : Envelope) (raw : String)
    (hreg : isRegister env = false)
    (ht : truthy env.type = true) (hf : truthy env.«from» = true)
    (hto : truthy env.«to» = true)
    (hr : alookup (env.«to».getD "") s.connectedClients = some r)
    (hopen : connOpen s r = true) :
    handleMessage s ws (Inbound.parsed env raw)
      = (s, [Output.send r (Wire.raw raw)]) :=
  handleMessage_signal_forward s ws r env raw hreg
    (by unfold isSignal; rw [ht, hf, hto]; rfl) hr hopen

/-- Witness for the amended C1 theorem at a concrete state and envelope. -/
theorem c1_signal_forwarded_verbatim_witness :
    isRegister exEnvSig = false
    ∧ truthy exEnvSig.type = true
    ∧ truthy exEnvSig.«from» = true
    ∧ truthy exEnvSig.«to» = true
    ∧ alookup (exEnvSig.«to».getD "") exState.connectedClients = some 1
    ∧ connOpen exState 1 = true
    ∧ handleMessage exState 0 (Inbound.parsed exEnvSig "RAW")
        = (exState, [Output.send 1 (Wire.raw "RAW")]) :=
  ⟨by decide, by decide, by decide, by decide, by decide, by decide,
   c1_signal_forwarded_verbatim exState 0 1 exEnvSig "RAW" (by decide)
     (by decide) (by decide) (by decide) (by decide) (by decide)⟩

/-- C2 (code bug): after sockets 0 and 1 both register identity i (socket 1
second) and socket 0 disconnects, socket 1 has completed registration and
has not disconnected — it is still held by the server, open, and its
ws.userId is i — yet the registry no longer contains i: the close handler
deleted the entry keyed by the closing socket's ws.userId even though that
entry pointed to the surviving socket, violating the stated registry
invariant. -/
theorem c2_close_unregisters_surviving_connection :
    wfB init exTraceC2 = true
    ∧ 1 ∈ (run init exTraceC2).clients
    ∧ getConn (run init exTraceC2) 1
        = some ⟨some "i", true, ReadyState.opened⟩
    ∧ connOpen (run init exTraceC2) 1 = true
    ∧ alookup "i" (run init exTraceC2).connectedClients = none := by decide

/-- C3 (counterexample): an inbound envelope with non-empty type, from and
to whose to field matches no open registered connection triggers no error
reply when the envelope is also a register message: the register branch
returns first, so the sender (whose channel is open) receives nothing,
refuting the claim as stated for this input. -/
theorem c3_counterexample_register_envelope :
    truthy exEnvRegGhost.type = true
    ∧ truthy exEnvRegGhost.«from» = true
    ∧ truthy exEnvRegGhost.«to» = true
    ∧ alookup (exEnvRegGhost.«to».getD "") exState.connectedClients = none
    ∧ connOpen exState 0 = true
    ∧ (handleMessage exState 0 (Inbound.parsed exEnvRegGhost "RAW")).2 = []
    ∧ (handleMessage exState 0 (Inbound.parsed exEnvRegGhost "RAW")).2
        ≠ [Output.send 0 (Wire.errorNotAvailable "a")] := by decide

/-- C3 (amended): for every inbound envelope with non-empty type, from and
to fields that is not processed as a registration and whose to field has no
matching open registered connection, the relay sends back to the sender
exactly one error envelope — type error, message Recipient not available,
from server, to equal to the envelope's original from field — when the
sender's own channel is open, and nothing at all otherwise; the intended
recipient receives nothing and the state is unchanged. -/
theorem c3_unavailable_recipient_error_reply (s : RelayState) (ws : ConnId)
    (env : Envelope) (raw : String)
    (hreg : isRegister env = false)
    (ht : truthy env.type = true) (hf : truthy env.«from» = true)
    (hto : truthy env.«to» = true)
    (hunavail : ∀ r,
      alookup (env.«to».getD "") s.connectedClients = some r →
        connOpen s r = false) :
    handleMessage s ws (Inbound.parsed env raw)
      = (s, if connOpen s ws = true
            then [Output.send ws (Wire.errorNotAvailable (env.«from».getD ""))]
            else []) :=
  handleMessage_signal_unavailable s ws env raw hreg
    (by unfold isSignal; rw [ht, hf, hto]; rfl) hunavail

/-- Witness for the amended C3 theorem: a signal to the unregistered
identity ghost draws exactly the error reply to the open sender. -/
theorem c3_unavailable_recipient_error_reply_witness :
    isRegister exEnvGhost = false
    ∧ truthy exEnvGhost.type = true
    ∧ truthy exEnvGhost.«from» = true
    ∧ truthy exEnvGhost.«to» = true
    ∧ (∀ r, alookup (exEnvGhost.«to».getD "") exState.connectedClients
          = some r → connOpen exState r = false)
    ∧ handleMessage exState 0 (Inbound.parsed exEnvGhost "RAW")
        = (exState,
           if connOpen exState 0 = true
           then [Output.send 0
                  (Wire.errorNotAvailable (exEnvGhost.«from».getD ""))]
           else []) := by
  have hunav : ∀ r, alookup (exEnvGhost.«to».getD "") exState.connectedClients
      = some r → connOpen exState r = false := by
    intro r h
    have h0 : alookup (exEnvGhost.«to».getD "") exState.connectedClients
        = (none : Option ConnId) := by decide
    rw [h0] at h
    exact Option.noConfusion h
  exact ⟨by decide, by decide, by decide, by decide, hunav,
    c3_unavailable_recipient_error_reply exState 0 exEnvGhost "RAW"
      (by decide) (by decide) (by decide) (by decide) hunav⟩

/-- C4: processing a register envelope on a connection emits no output at
all (no acknowledgment), associates the envelope's userId with the current
connection in the registry — overwriting any prior entry for that identity
while leaving every other registry entry, every other connection's record
(so the superseded connection is not closed) and the server set unchanged —
and records the identity on the connection; consequently a subsequent
well-formed signal addressed to that identity, from any sender, is
delivered only to this latest registrant when it is open. -/
theorem c4_register_overwrites_silently (s s2 : RelayState) (ws : ConnId)
    (env : Envelope) (raw : String) (v : Conn) (outs : List Output)
    (hreg : isRegister env = true) (hv : getConn s ws = some v)
    (hstep : handleMessage s ws (Inbound.parsed env raw) = (s2, outs)) :
    outs = []
    ∧ s2.clients = s.clients
    ∧ alookup (env.userId.getD "") s2.connectedClients = some ws
    ∧ (∀ u, u ≠ env.userId.getD "" →
        alookup u s2.connectedClients = alookup u s.connectedClients)
    ∧ getConn s2 ws = some { v with userId := some (env.userId.getD "") }
    ∧ (∀ d, d ≠ ws → getConn s2 d = getConn s d)
    ∧ (∀ (ws2 : ConnId) (env2 : Envelope) (raw2 : String),
        isRegister env2 = false → isSignal env2 = true →
        env2.«to».getD "" = env.userId.getD "" →
        connOpen s2 ws = true →
        handleMessage s2 ws2 (Inbound.parsed env2 raw2)
          = (s2, [Output.send ws (Wire.raw raw2)])) := by
  rw [handleMessage_register s ws env raw hreg hv] at hstep
  injection hstep with hA hB
  subst hA
  subst hB
  refine ⟨rfl, rfl, alookup_aset_self _ _ _, ?_, ?_, ?_, ?_⟩
  · intro u hu
    exact alookup_aset_ne _ _ hu
  · show alookup ws (aset ws _ s.conns) = _
    exact alookup_aset_self _ _ _
  · intro d hd
    show alookup d (aset ws _ s.conns) = alookup d s.conns
    exact alookup_aset_ne _ _ hd
  · intro ws2 env2 raw2 h1 h2 h3 h4
    refine handleMessage_signal_forward _ ws2 ws env2 raw2 h1 h2 ?_ h4
    show alookup (env2.«to».getD "")
        (aset (env.userId.getD "") ws s.connectedClients) = some ws
    rw [h3]
    exact alookup_aset_self _ _ _

/-- Witness for C4: socket 1 re-registers bob over socket 0 and the
registry now routes bob to socket 1. -/
theorem c4_register_overwrites_silently_witness :
    isRegister exEnvRegBob = true
    ∧ getConn exStateA1 1 = some ⟨none, true, ReadyState.opened⟩
    ∧ handleMessage exStateA1 1 (Inbound.parsed exEnvRegBob "reg")
        = (exStateA2, [])
    ∧ alookup "bob" exStateA2.connectedClients = some 1
    ∧ getConn exStateA2 0 = some ⟨some "bob", true, ReadyState.opened⟩ := by
  have H := c4_register_overwrites_silently exStateA1 exStateA2 1 exEnvRegBob
    "reg" ⟨none, true, ReadyState.opened⟩ [] (by decide) (by decide)
    (by decide)
  exact ⟨by decide, by decide, by decide, H.2.2.1,
    (H.2.2.2.2.2.1 0 (by decide)).trans (by decide)⟩

/-- C5: on a liveness timer tick, every connection in the server set whose
liveness flag is false is removed from the server set, its channel is
closed, its registry entry (when its recorded identity is truthy) is
deleted and a terminate is emitted for it; every connection whose flag is
true gets its flag set to false, stays in the server set and is sent a
ping.  Moreover a probe acknowledgment sets the flag back to true and a
freshly established connection starts with the flag true. -/
theorem c5_liveness_sweep (s : RelayState) (c : ConnId) (v : Conn)
    (hnd : s.clients.Nodup) (hmem : c ∈ s.clients)
    (hv : getConn s c = some v) :
    (v.isAlive = false →
      c ∉ (tick s).1.clients
      ∧ getConn (tick s).1 c = some { v with readyState := ReadyState.closed }
      ∧ (truthy v.userId = true →
          alookup (v.userId.getD "") (tick s).1.connectedClients = none)
      ∧ Output.terminate c ∈ (tick s).2)
    ∧ (v.isAlive = true →
      getConn (tick s).1 c = some { v with isAlive := false }
      ∧ c ∈ (tick s).1.clients
      ∧ Output.ping c ∈ (tick s).2)
    ∧ (∀ (d : ConnId) (w : Conn), getConn s d = some w →
        getConn (handlePong s d) d = some { w with isAlive := true })
    ∧ (∀ d : ConnId, getConn (handleConnect s d) d
        = some { userId := none, isAlive := true,
                 readyState := ReadyState.opened }) := by
  refine ⟨(tick_conn_spec s hnd hmem hv).2, (tick_conn_spec s hnd hmem hv).1,
          ?_, ?_⟩
  · intro d w hw
    exact getConn_handlePong_self s hw
  · intro d
    exact getConn_handleConnect_self s d

/-- Witness for C5: in a state where socket 0 is registered as i with its
flag down, a tick reaps socket 0 and purges its registry entry. -/
theorem c5_liveness_sweep_witness :
    exStateDead.clients.Nodup
    ∧ 0 ∈ exStateDead.clients
    ∧ getConn exStateDead 0 = some ⟨some "i", false, ReadyState.opened⟩
    ∧ (0 ∉ (tick exStateDead).1.clients
       ∧ getConn (tick exStateDead).1 0
           = some ⟨some "i", false, ReadyState.closed⟩
       ∧ (truthy (some "i") = true →
           alookup "i" (tick exStateDead).1.connectedClients = none)
       ∧ Output.terminate 0 ∈ (tick exStateDead).2) :=
  ⟨by decide, by decide, by decide,
   (c5_liveness_sweep exStateDead 0 ⟨some "i", false, ReadyState.opened⟩
     (by decide) (by decide) (by decide)).1 rfl⟩

/-- C6: over any transport-sane event sequence from server start in which
the connection acknowledges every liveness probe before the next timer tick
(every window between consecutive ticks at which it is held by the server
contains its pong or its establishment), no tick ever drops the connection
from the server set: the dead-connection branch of the sweep is unreachable
for it, so it is never forcibly closed by the liveness mechanism. -/
theorem c6_responsive_conn_never_reaped (c : ConnId) (tr : List Event)
    (hwf : wfB init tr = true) (hacks : acksB c init [] tr = true) :
    NeverReaped c init tr :=
  acks_neverReaped_aux c tr init []
    ⟨List.nodup_nil, fun x hx => absurd hx (List.not_mem_nil x)⟩
    hwf hacks
    (fun hw => absurd hw (by
      rw [show windowHasAck c [] = false from rfl]
      exact Bool.false_ne_true))

/-- Witness for C6: a socket that answers each probe before the following
tick survives two sweep cycles. -/
theorem c6_responsive_conn_never_reaped_witness :
    wfB init exTraceC6 = true
    ∧ acksB 0 init [] exTraceC6 = true
    ∧ NeverReaped 0 init exTraceC6 :=
  ⟨by decide, by decide,
   c6_responsive_conn_never_reaped 0 exTraceC6 (by decide) (by decide)⟩

/-- C7: when a connection disconnects, the registry entry under its
recorded identity (when truthy) is deleted, every registry entry under any
other identity is untouched, nothing happens to the registry when the
connection never registered, the record — including the liveness flag — of
every other connection is untouched, and the disconnecting socket merely
leaves the server set with its channel closed. -/
theorem c7_disconnect_frame_effect (s : RelayState) (ws : ConnId) (v : Conn)
    (hv : getConn s ws = some v) :
    (truthy v.userId = true →
      alookup (v.userId.getD "") (handleClose s ws).connectedClients = none)
    ∧ (∀ u, u ≠ v.userId.getD "" →
        alookup u (handleClose s ws).connectedClients
          = alookup u s.connectedClients)
    ∧ (truthy v.userId = false →
        (handleClose s ws).connectedClients = s.connectedClients)
    ∧ (∀ d, d ≠ ws → getConn (handleClose s ws) d = getConn s d)
    ∧ (handleClose s ws).clients = removeClient ws s.clients
    ∧ getConn (handleClose s ws) ws
        = some { v with readyState := ReadyState.closed } := by
  refine ⟨?_, ?_, ?_, ?_, handleClose_clients s ws,
          getConn_handleClose_self s hv⟩
  · intro ht
    rw [registry_handleClose_truthy s hv ht]
    exact alookup_aerase_self _ _
  · intro u hu
    cases ht : truthy v.userId with
    | true =>
      rw [registry_handleClose_truthy s hv ht]
      exact alookup_aerase_ne _ hu
    | false => rw [registry_handleClose_falsy s hv ht]
  · intro hf
    exact registry_handleClose_falsy s hv hf
  · intro d hd
    exact getConn_handleClose_ne s hd

/-- Witness for C7: socket 0 (registered as i) disconnects; entry i is
gone while entry j and socket 1's record are untouched. -/
theorem c7_disconnect_frame_effect_witness :
    getConn exStateDead 0 = some ⟨some "i", false, ReadyState.opened⟩
    ∧ alookup "i" (handleClose exStateDead 0).connectedClients = none
    ∧ alookup "j" (handleClose exStateDead 0).connectedClients = some 1
    ∧ getConn (handleClose exStateDead 0) 1
        = some ⟨some "j", true, ReadyState.opened⟩ := by
  have H := c7_disconnect_frame_effect exStateDead 0
    ⟨some "i", false, ReadyState.opened⟩ (by decide)
  exact ⟨by decide, H.1 (by decide), H.2.1 "j" (by decide),
         H.2.2.2.1 1 (by decide)⟩

/-- C8: every inbound frame that is malformed — not parseable, or parseable
but neither a register message nor carrying non-empty type, from and to —
leaves the handler with no outbound message and a completely unchanged
state (registry untouched, sender not disconnected); the handler is a total
function, reflecting that the surrounding try/catch lets no exception
escape. -/
theorem c8_malformed_input_ignored (s : RelayState) (ws : ConnId)
    (m : Inbound)
    (h : (∃ raw, m = Inbound.malformed raw)
      ∨ ∃ env raw, m = Inbound.parsed env raw
          ∧ isRegister env = false ∧ isSignal env = false) :
    handleMessage s ws m = (s, []) := by
  rcases h with ⟨raw, rfl⟩ | ⟨env, raw, rfl, hreg, hsig⟩
  · rfl
  · simp only [handleMessage]
    rw [if_neg (by rw [hreg]; exact Bool.false_ne_true),
        if_neg (by rw [hsig]; exact Bool.false_ne_true)]

/-- Witness for C8: a parsed envelope lacking a to field produces nothing
and changes nothing. -/
theorem c8_malformed_input_ignored_witness :
    ((∃ raw, Inbound.parsed exEnvNoTo "junk" = Inbound.malformed raw)
      ∨ ∃ env raw, Inbound.parsed exEnvNoTo "junk" = Inbound.parsed env raw
          ∧ isRegister env = false ∧ isSignal env = false)
    ∧ handleMessage exState 0 (Inbound.parsed exEnvNoTo "junk")
        = (exState, []) :=
  ⟨Or.inr ⟨exEnvNoTo, "junk", rfl, by decide, by decide⟩,
   c8_malformed_input_ignored exState 0 _
     (Or.inr ⟨exEnvNoTo, "junk", rfl, by decide, by decide⟩)⟩

/-- C9: every envelope whose type is exactly register with a non-empty
userId is processed solely as a registration — the result is exactly the
registration state update with an empty output list, so it is never
forwarded and never draws a recipient-not-available error, whatever its
from and to fields hold. -/
theorem c9_register_branch_precedence (s : RelayState) (ws : ConnId)
    (env : Envelope) (raw : String) (v : Conn)
    (htype : env.type = some "register") (huid : truthy env.userId = true)
    (hv : getConn s ws = some v) :
    handleMessage s ws (Inbound.parsed env raw)
      = (⟨s.clients,
          aset ws { v with userId := some (env.userId.getD "") } s.conns,
          aset (env.userId.getD "") ws s.connectedClients⟩, []) :=
  handleMessage_register s ws env raw
    (by simp [isRegister, htype, huid]) hv

/-- Witness for C9: a register envelope that also carries non-empty from
and to fields is still handled purely as a registration. -/
theorem c9_register_branch_precedence_witness :
    exEnvRegFromTo.type = some "register"
    ∧ truthy exEnvRegFromTo.userId = true
    ∧ truthy exEnvRegFromTo.«from» = true
    ∧ truthy exEnvRegFromTo.«to» = true
    ∧ getConn exState 0 = some ⟨none, true, ReadyState.opened⟩
    ∧ handleMessage exState 0 (Inbound.parsed exEnvRegFromTo "RAW")
        = (⟨exState.clients,
            aset 0 ⟨some "u", true, ReadyState.opened⟩ exState.conns,
            aset "u" 0 exState.connectedClients⟩, []) :=
  ⟨rfl, by decide, by decide, by decide, by decide,
   c9_register_branch_precedence exState 0 exEnvRegFromTo "RAW"
     ⟨none, true, ReadyState.opened⟩ rfl (by decide) (by decide)⟩

/-- C10: for every well-formed signal envelope (not processed as a
registration), the relay's output is independent of the sender's own
registered identity — changing only the sender's recorded userId (to
anything, including none for an unregistered sender) yields exactly the
same output actions — and independent of every registry entry other than
the one under the envelope's to field; moreover the signal branch mutates
no state in either run. -/
theorem c10_signal_routing_ignores_sender_identity (s : RelayState)
    (ws : ConnId) (env : Envelope) (raw : String) (u : Option String)
    (hreg : isRegister env = false)
    (ht : truthy env.type = true) (hf : truthy env.«from» = true)
    (hto : truthy env.«to» = true) :
    (handleMessage (setUserId s ws u) ws (Inbound.parsed env raw)).2
      = (handleMessage s ws (Inbound.parsed env raw)).2
    ∧ (handleMessage s ws (Inbound.parsed env raw)).1 = s
    ∧ (handleMessage (setUserId s ws u) ws (Inbound.parsed env raw)).1
        = setUserId s ws u
    ∧ ∀ m2 : List (String × ConnId),
        alookup (env.«to».getD "") m2
          = alookup (env.«to».getD "") s.connectedClients →
        (handleMessage { s with connectedClients := m2 } ws
            (Inbound.parsed env raw)).2
          = (handleMessage s ws (Inbound.parsed env raw)).2 := by
  have hsig : isSignal env = true := by
    unfold isSignal; rw [ht, hf, hto]; rfl
  refine ⟨?_, handleMessage_nonregister_state s ws env raw hreg,
          handleMessage_nonregister_state _ ws env raw hreg, ?_⟩
  · cases halk : alookup (env.«to».getD "") s.connectedClients with
    | some r =>
      have halk2 : alookup (env.«to».getD "")
          (setUserId s ws u).connectedClients = some r := by
        rw [registry_setUserId]; exact halk
      by_cases ho : connOpen s r = true
      · rw [handleMessage_signal_forward (setUserId s ws u) ws r env raw
              hreg hsig halk2 (by rw [connOpen_setUserId]; exact ho),
            handleMessage_signal_forward s ws r env raw hreg hsig halk ho]
      · have hunav : ∀ r2, alookup (env.«to».getD "") s.connectedClients
            = some r2 → connOpen s r2 = false := by
          intro r2 h2
          rw [halk] at h2
          cases h2
          cases hb : connOpen s r with
          | false => rfl
          | true => exact absurd hb ho
        have hunav2 : ∀ r2, alookup (env.«to».getD "")
            (setUserId s ws u).connectedClients = some r2 →
              connOpen (setUserId s ws u) r2 = false := by
          intro r2 h2
          rw [registry_setUserId] at h2
          rw [connOpen_setUserId]
          exact hunav r2 h2
        rw [handleMessage_signal_unavailable (setUserId s ws u) ws env raw
              hreg hsig hunav2,
            handleMessage_signal_unavailable s ws env raw hreg hsig hunav]
        show (if connOpen (setUserId s ws u) ws = true
              then [Output.send ws
                     (Wire.errorNotAvailable (env.«from».getD ""))]
              else [])
          = (if connOpen s ws = true
             then [Output.send ws
                    (Wire.errorNotAvailable (env.«from».getD ""))]
             else [])
        rw [connOpen_setUserId]
    | none =>
      have hunav : ∀ r2, alookup (env.«to».getD "") s.connectedClients
          = some r2 → connOpen s r2 = false := by
        intro r2 h2
        rw [halk] at h2
        exact Option.noConfusion h2
      have hunav2 : ∀ r2, alookup (env.«to».getD "")
          (setUserId s ws u).connectedClients = some r2 →
            connOpen (setUserId s ws u) r2 = false := by
        intro r2 h2
        rw [registry_setUserId] at h2
        rw [connOpen_setUserId]
        exact hunav r2 h2
      rw [handleMessage_signal_unavailable (setUserId s ws u) ws env raw
            hreg hsig hunav2,
          handleMessage_signal_unavailable s ws env raw hreg hsig hunav]
      show (if connOpen (setUserId s ws u) ws = true
            then [Output.send ws
                   (Wire.errorNotAvailable (env.«from».getD ""))]
            else [])
        = (if connOpen s ws = true
           then [Output.send ws
                  (Wire.errorNotAvailable (env.«from».getD ""))]
           else [])
      rw [connOpen_setUserId]
  · intro m2 hm2
    cases halk : alookup (env.«to».getD "") s.connectedClients with
    | some r =>
      have halk2 : alookup (env.«to».getD "")
          ({ s with connectedClients := m2 } : RelayState).connectedClients
            = some r := by
        show alookup (env.«to».getD "") m2 = some r
        rw [hm2]
        exact halk
      by_cases ho : connOpen s r = true
      · rw [handleMessage_signal_forward _ ws r env raw hreg hsig halk2 ho,
            handleMessage_signal_forward s ws r env raw hreg hsig halk ho]
      · have hunav : ∀ r2, alookup (env.«to».getD "") s.connectedClients
            = some r2 → connOpen s r2 = false := by
          intro r2 h2
          rw [halk] at h2
          cases h2
          cases hb : connOpen s r with
          | false => rfl
          | true => exact absurd hb ho
        have hunav2 : ∀ r2, alookup (env.«to».getD "")
            ({ s with connectedClients := m2 } : RelayState).connectedClients
              = some r2 →
            connOpen { s with connectedClients := m2 } r2 = false := by
          intro r2 h2
          rw [hm2] at h2
          exact hunav r2 h2
        rw [handleMessage_signal_unavailable _ ws env raw hreg hsig hunav2,
            handleMessage_signal_unavailable s ws env raw hreg hsig hunav]
        rfl
    | none =>
      have hunav : ∀ r2, alookup (env.«to».getD "") s.connectedClients
          = some r2 → connOpen s r2 = false := by
        intro r2 h2
        rw [halk] at h2
        exact Option.noConfusion h2
      have hunav2 : ∀ r2, alookup (env.«to».getD "")
          ({ s with connectedClients := m2 } : RelayState).connectedClients
            = some r2 →
          connOpen { s with connectedClients := m2 } r2 = false := by
        intro r2 h2
        rw [hm2] at h2
        exact hunav r2 h2
      rw [handleMessage_signal_unavailable _ ws env raw hreg hsig hunav2,
          handleMessage_signal_unavailable s ws env raw hreg hsig hunav]
      rfl

/-- Witness for C10 at a concrete state: giving the sender a different
recorded identity leaves the relay's output unchanged. -/
theorem c10_signal_routing_ignores_sender_identity_witness :
    isRegister exEnvSig = false
    ∧ truthy exEnvSig.type = true
    ∧ truthy exEnvSig.«from» = true
    ∧ truthy exEnvSig.«to» = true
    ∧ (handleMessage (setUserId exState 0 (some "x")) 0
        (Inbound.parsed exEnvSig "RAW")).2
      = (handleMessage exState 0 (Inbound.parsed exEnvSig "RAW")).2 :=
  ⟨by decide, by decide, by decide, by decide,
   (c10_signal_routing_ignores_sender_identity exState 0 exEnvSig "RAW"
     (some "x") (by decide) (by decide) (by decide) (by decide)).1⟩

end Relay
